import Mathlib

/-!
Shallow embedding of the insurance-PDF pipeline (create_metadata.py,
organize_pdfs.py): keyword classification heuristics, safe text cleaning,
filename/path building, and the organizer's status-lifecycle gate.
Strings are modelled as Lean `String` / `List Char`; Python's `str.strip`,
`str.replace`, `re.sub`, `in`, slicing and `dict.get` are embedded
explicitly below.
-/

/-- Python's default `str.strip` whitespace set (ASCII part). -/
def isPySpace (c : Char) : Bool :=
  c = ' ' || c = '\t' || c = '\n' || c = '\r' || c = '\x0b' || c = '\x0c'

/-- Characters kept by the regex `[A-Za-z0-9_-]` in both `clean_text` copies. -/
def isAllowed (c : Char) : Bool :=
  (decide ('A' ≤ c) && decide (c ≤ 'Z')) ||
  (decide ('a' ≤ c) && decide (c ≤ 'z')) ||
  (decide ('0' ≤ c) && decide (c ≤ '9')) ||
  c = '_' || c = '-'

/-- `str.strip()`: drop leading and trailing whitespace. -/
def trimChars (cs : List Char) : List Char :=
  ((cs.dropWhile isPySpace).reverse.dropWhile isPySpace).reverse

/-- `value.replace(' ', '_')` acting on one character. -/
def replUnd (c : Char) : Char :=
  if c = ' ' then '_' else c

/-- The common core of both `clean_text` functions after the falsy check:
`value.strip()`, then `replace(' ', '_')`, then `re.sub(r'[^A-Za-z0-9_-]', '', value)`. -/
def cleanChars (cs : List Char) : List Char :=
  ((trimChars cs).map replUnd).filter isAllowed

/-- Python substring test `n in h`. -/
def isSubstr (n : List Char) : List Char → Bool
  | [] => n.isEmpty
  | c :: t => n.isPrefixOf (c :: t) || isSubstr n t

namespace CreateMetadata

/-- `clean_text` from create_metadata.py (lines 43-52). -/
def clean_text (value : String) : String :=
  if value = "" then "Unknown"
  else
    let v := cleanChars value.data
    if v = [] then "Unknown" else String.mk v

end CreateMetadata

namespace OrganizePdfs

/-- `clean_text` from organize_pdfs.py (lines 21-34); textually identical to
the create_metadata.py copy. -/
def clean_text (value : String) : String :=
  if value = "" then "Unknown"
  else
    let v := cleanChars value.data
    if v = [] then "Unknown" else String.mk v

end OrganizePdfs

namespace CreateMetadata

/-- `KNOWN_INSURERS` from create_metadata.py (lines 18-40), in file order. -/
def KNOWN_INSURERS : List String :=
  ["AMI", "AA Insurance", "State Insurance", "Tower", "AIA", "Southern Cross",
   "Vero", "FMG", "NZI", "NRMA", "Suncorp", "AXA", "Aviva", "Direct Line",
   "Bupa", "QBE", "Argis", "BIA", "Castle", "Allianz", "IAG"]

/-- The `for insurer in KNOWN_INSURERS` loop body of `detect_insurer`. -/
def findInsurer (first_section : List Char) : List String → String
  | [] => "Unknown"
  | insurer :: rest =>
    if isSubstr (insurer.data.map Char.toUpper) first_section then insurer
    else findInsurer first_section rest

/-- `detect_insurer` from create_metadata.py (lines 55-66):
`first_section = text[:2000].upper()`, then scan `KNOWN_INSURERS` in order. -/
def detect_insurer (text : String) : String :=
  findInsurer ((text.data.take 2000).map Char.toUpper) KNOWN_INSURERS

/-- `text[:2000]` as a string, for stating prefix-dependence. -/
def take2000 (text : String) : String :=
  String.mk (text.data.take 2000)

/-- `name.upper() in hay.upper()`: case-insensitive literal substring test. -/
def occursCI (name hay : String) : Bool :=
  isSubstr (name.data.map Char.toUpper) (hay.data.map Char.toUpper)

/-- Modelled from the spec's words for comparison with `detect_insurer`:
"the earliest entry of the fixed insurer dictionary (dictionary order) whose
name occurs case-insensitively as a literal substring of the first 2000
characters, and `Unknown` when no entry occurs there". -/
def insurerSpec (text : String) : String :=
  (KNOWN_INSURERS.find? (fun i => occursCI i (take2000 text))).getD "Unknown"

/-- `any(word in t for word in kws)` over an already lower-cased text `t`. -/
def anyKw (t : List Char) (kws : List String) : Bool :=
  kws.any (fun w => isSubstr w.data t)

/-- `detect_line` from create_metadata.py (lines 69-104): priority-ordered
chain of keyword checks over the lower-cased full text. -/
def detect_line (text : String) : String :=
  let t := text.data.map Char.toLower
  if anyKw t ["professional indemnity", "pi insurance", "professional liability",
      "accountants liability"] then "Professional Indemnity"
  else if anyKw t ["farm insurance", "agricultural", "farming", "rural property"] then "Farm"
  else if anyKw t ["landlord", "rental property", "investment property",
      "residential landlord"] then "Landlord"
  else if anyKw t ["construction", "builders indemnity", "contract works",
      "building project"] then "Construction"
  else if anyKw t ["car insurance", "motor", "vehicle insurance", "auto insurance"] then "Motor"
  else if anyKw t ["life insurance", "life cover", "life protection"] then "Life"
  else if anyKw t ["health insurance", "medical insurance", "health cover"] then "Health"
  else if anyKw t ["home insurance", "contents insurance", "house insurance",
      "home & contents"] then "Home & Contents"
  else if anyKw t ["travel insurance", "trip insurance", "travel cover"] then "Travel"
  else "Unknown"

/-- Modelled from the spec's words: the ordered sequence of
(label, keyword-set) pairs, most specific first. -/
def LINE_CATEGORIES : List (String × List String) :=
  [("Professional Indemnity", ["professional indemnity", "pi insurance",
      "professional liability", "accountants liability"]),
   ("Farm", ["farm insurance", "agricultural", "farming", "rural property"]),
   ("Landlord", ["landlord", "rental property", "investment property",
      "residential landlord"]),
   ("Construction", ["construction", "builders indemnity", "contract works",
      "building project"]),
   ("Motor", ["car insurance", "motor", "vehicle insurance", "auto insurance"]),
   ("Life", ["life insurance", "life cover", "life protection"]),
   ("Health", ["health insurance", "medical insurance", "health cover"]),
   ("Home & Contents", ["home insurance", "contents insurance", "house insurance",
      "home & contents"]),
   ("Travel", ["travel insurance", "trip insurance", "travel cover"])]

/-- Strict ordered first-match over the category list (spec section 4.1/9):
return the first label whose keyword set has any substring match. -/
def firstMatchLine (t : List Char) : List (String × List String) → String
  | [] => "Unknown"
  | (label, kws) :: rest => if anyKw t kws then label else firstMatchLine t rest

/-- Modelled from the spec's words for comparison with `detect_line`. -/
def lineSpec (text : String) : String :=
  firstMatchLine (text.data.map Char.toLower) LINE_CATEGORIES

/-- Python `text.split('\n')`. -/
def splitNl : List Char → List (List Char)
  | [] => [[]]
  | c :: t =>
    if c = '\n' then [] :: splitNl t
    else
      match splitNl t with
      | [] => [[c]]
      | l :: ls => (c :: l) :: ls

/-- The qualifying test of `detect_product_name` applied to a trimmed line:
`10 < len(trimmed) < 100`, not `startswith('www')`, and some keyword of
`['policy', 'insurance', 'wording', 'cover']` occurs in `trimmed.lower()`. -/
def productLineOk (trimmed : List Char) : Bool :=
  (decide (10 < trimmed.length) && decide (trimmed.length < 100) &&
    !(("www".data).isPrefixOf trimmed)) &&
  anyKw (trimmed.map Char.toLower) ["policy", "insurance", "wording", "cover"]

/-- The `for line in lines` loop of `detect_product_name` (nested ifs as in
the source: length/www test, then keyword test). -/
def findProductLine : List (List Char) → String
  | [] => "General Policy"
  | line :: rest =>
    let trimmed := trimChars line
    if decide (10 < trimmed.length) && decide (trimmed.length < 100) &&
        !(("www".data).isPrefixOf trimmed) then
      if anyKw (trimmed.map Char.toLower) ["policy", "insurance", "wording", "cover"] then
        String.mk trimmed
      else findProductLine rest
    else findProductLine rest

/-- `detect_product_name` from create_metadata.py (lines 107-121):
`lines = text.split('\n')[:30]`, first qualifying line trimmed,
else `"General Policy"`. -/
def detect_product_name (text : String) : String :=
  findProductLine ((splitNl text.data).take 30)

/-- Modelled from the spec's words for comparison with `detect_product_name`:
over the trimmed first 30 lines, return the first one passing the
qualification test, else the `"General Policy"` fallback. -/
def productSpec (text : String) : String :=
  ((((splitNl text.data).take 30).map trimChars).find? productLineOk).elim
    "General Policy" String.mk

/-- `detect_country` from create_metadata.py (lines 123-134). -/
def detect_country (text : String) : String :=
  let t := text.data.map Char.toLower
  if anyKw t ["new zealand", "nz ", " nz", "auckland", "wellington"] then "New Zealand"
  else if anyKw t ["australia", " au ", "sydney", "melbourne"] then "Australia"
  else if anyKw t ["united kingdom", "uk ", " uk", "england", "scotland"] then "United Kingdom"
  else "Unknown"

/-- `build_filename` from create_metadata.py (lines 136-145), taking the four
dict entries as arguments. -/
def build_filename (country insurer line product : String) : String :=
  clean_text country ++ "_" ++ clean_text insurer ++ "_" ++ clean_text line ++ "_"
    ++ clean_text product ++ ".pdf"

/-- The confidence derivation of create_metadata.py (lines 210-212):
`"High"` if country, insurer and line are all non-`"Unknown"`, else `"Medium"`. -/
def confidence_of (country insurer line : String) : String :=
  if country ≠ "Unknown" ∧ insurer ≠ "Unknown" ∧ line ≠ "Unknown" then "High" else "Medium"

end CreateMetadata

/-- A persisted metadata record (one JSON file). Every field is `Option`
because a JSON object read back by the Organizer may lack any key
(`dict.get` then yields `None`). -/
structure Metadata where
  original_filename : Option String
  generated_filename : Option String
  country : Option String
  insurer : Option String
  insurance_line : Option String
  product_name : Option String
  document_type : Option String
  source_url : Option String
  download_date : Option String
  confidence : Option String
  status : Option String
  created_at : Option String
  organized_date : Option String
deriving DecidableEq, Repr

/-- A record with every field absent, for building concrete examples. -/
def emptyMeta : Metadata :=
  ⟨none, none, none, none, none, none, none, none, none, none, none, none, none⟩

/-- The per-record metadata construction of create_metadata.py
(lines 202-236) given the extracted text: detection, derived fields, and a
fresh record with `status = "needs_review"`. The loop writes this record to
`metadata/<stem>.json` unconditionally, replacing any existing record. -/
def classifierStep (filename text today : String) : Metadata :=
  let country := CreateMetadata.detect_country text
  let insurer := CreateMetadata.detect_insurer text
  let line := CreateMetadata.detect_line text
  let product := CreateMetadata.detect_product_name text
  let document_type :=
    if isSubstr "Wording".data product.data then "Policy Wording" else "Policy Document"
  let confidence := CreateMetadata.confidence_of country insurer line
  { original_filename := some filename
    generated_filename := some (CreateMetadata.build_filename country insurer line product)
    country := some country
    insurer := some insurer
    insurance_line := some line
    product_name := some product
    document_type := some document_type
    source_url := some "local_upload"
    download_date := some today
    confidence := some confidence
    status := some "needs_review"
    created_at := some today
    organized_date := none }

namespace OrganizePdfs

/-- `build_filename` from organize_pdfs.py (lines 37-47):
`metadata.get(field, "Unknown")` for each of the four fields, cleaned. -/
def build_filename (m : Metadata) : String :=
  clean_text (m.country.getD "Unknown") ++ "_" ++ clean_text (m.insurer.getD "Unknown")
    ++ "_" ++ clean_text (m.insurance_line.getD "Unknown") ++ "_"
    ++ clean_text (m.product_name.getD "Unknown") ++ ".pdf"

/-- `os.path.join(policies_folder, country, insurer, insurance_line,
product_name)` with the `metadata.get(field, "")` defaults of lines 101-112. -/
def folderPath (m : Metadata) : String :=
  "policies/" ++ clean_text (m.country.getD "") ++ "/" ++ clean_text (m.insurer.getD "")
    ++ "/" ++ clean_text (m.insurance_line.getD "") ++ "/"
    ++ clean_text (m.product_name.getD "")

/-- `os.path.join(raw_docs_folder, original_filename)`. -/
def srcPath (m : Metadata) : String :=
  "raw_documents/" ++ m.original_filename.getD ""

/-- `os.path.join(folder_path, generated_filename)`. -/
def dstPath (m : Metadata) : String :=
  folderPath m ++ "/" ++ build_filename m

/-- The per-record outcome printed by organize_pdfs.py. -/
inductive Outcome where
  | skippedMissingFilename
  | skippedStatus (status : String)
  | skippedUnknown (field : String)
  | errorMkdir
  | errorFileNotFound
  | errorMove
  | organized
deriving DecidableEq, Repr

/-- The per-record body of the organize loop (organize_pdfs.py lines 72-156)
after a successful JSON read: filename check, status-lifecycle gate,
`"Unknown"`-field gate, folder creation, move, and — only when the move
succeeded — the metadata update `generated_filename`/`status`/`organized_date`.
`srcExists` models `os.path.exists(src_filepath)`; `mkdirOk` and `moveOk`
model whether `os.makedirs` and `shutil.move` raise. The returned record is
the one persisted on disk afterwards. -/
def organizeRecord (m : Metadata) (srcExists mkdirOk moveOk : Bool) (now : String) :
    Metadata × Outcome :=
  if m.original_filename.getD "" = "" then (m, .skippedMissingFilename)
  else if m.status.getD "unknown" ≠ "classified" then
    (m, .skippedStatus (m.status.getD "unknown"))
  else if m.country = some "Unknown" then (m, .skippedUnknown "country")
  else if m.insurer = some "Unknown" then (m, .skippedUnknown "insurer")
  else if m.insurance_line = some "Unknown" then (m, .skippedUnknown "insurance_line")
  else if m.product_name = some "Unknown" then (m, .skippedUnknown "product_name")
  else if ¬ mkdirOk then (m, .errorMkdir)
  else if srcExists then
    if moveOk then
      ({ m with generated_filename := some (build_filename m)
                status := some "organized"
                organized_date := some now }, .organized)
    else (m, .errorMove)
  else (m, .errorFileNotFound)

/-- A flat filesystem: path to file content. -/
def Fs : Type := String → Option String

/-- `shutil.move src dst`: dst now holds src's content, src is gone
(an existing file at dst is replaced). -/
def fsMove (fs : Fs) (src dst : String) : Fs :=
  fun p => if p = dst then fs src else if p = src then none else fs p

/-- The organize loop body together with its filesystem effect: the source
file exists iff `fs` has an entry at `srcPath m`, and a successful organize
moves it to `dstPath m`. -/
def organizeFs (fs : Fs) (m : Metadata) (now : String) : Fs × Metadata × Outcome :=
  let r := organizeRecord m (fs (srcPath m)).isSome true true now
  (if r.2 = .organized then fsMove fs (srcPath m) (dstPath m) else fs, r)

end OrganizePdfs

/-- Rank of a status value in the lifecycle
`needs_review -> classified -> organized` (0 for anything else). -/
def statusRank (s : Option String) : Nat :=
  if s = some "needs_review" then 1
  else if s = some "classified" then 2
  else if s = some "organized" then 3
  else 0

/-- A fully resolved record in status `classified` (concrete example). -/
def classifiedMeta : Metadata :=
  { emptyMeta with
      original_filename := some "doc1.pdf"
      country := some "New Zealand"
      insurer := some "AMI"
      insurance_line := some "Motor"
      product_name := some "Car Insurance Policy"
      status := some "classified" }

/-- A classified record whose `product_name` is unresolved (concrete example). -/
def unknownProductMeta : Metadata :=
  { classifiedMeta with product_name := some "Unknown" }

/-- A record with `status = "needs_review"` and no `original_filename`
(concrete example for the filename check preceding the status check). -/
def noFilenameMeta : Metadata :=
  { emptyMeta with status := some "needs_review" }

/-- A fully resolved record still in status `needs_review` (concrete example). -/
def needsReviewMeta : Metadata :=
  { classifiedMeta with status := some "needs_review" }

/-- Second fully resolved classified record: same four classification fields
as `classifiedMeta` but a different `original_filename`. -/
def classifiedMeta2 : Metadata :=
  { classifiedMeta with original_filename := some "doc2.pdf" }

/-- A concrete filesystem holding the two source files of `classifiedMeta`
and `classifiedMeta2`. -/
def fsTwoDocs : OrganizePdfs.Fs :=
  fun p =>
    if p = "raw_documents/doc1.pdf" then some "contentA"
    else if p = "raw_documents/doc2.pdf" then some "contentB"
    else none

-- Helper lemmas about cleaning

theorem isAllowed_not_space {c : Char} (h : isAllowed c = true) : isPySpace c = false := by
  by_contra hne
  have hs : isPySpace c = true := by
    cases hx : isPySpace c
    · exact absurd hx hne
    · rfl
  simp only [isPySpace, Bool.or_eq_true, decide_eq_true_eq] at hs
  rcases hs with ((((h1 | h1) | h1) | h1) | h1) | h1 <;> subst h1 <;> simp [isAllowed] at h

theorem isAllowed_replUnd {c : Char} (h : isAllowed c = true) : replUnd c = c := by
  unfold replUnd
  split
  · rename_i hsp
    subst hsp
    simp [isAllowed] at h
  · rfl

theorem dropWhile_of_all_neg {p : Char → Bool} :
    ∀ l : List Char, (∀ c ∈ l, p c = false) → l.dropWhile p = l := by
  intro l h
  cases l with
  | nil => rfl
  | cons a t =>
    rw [List.dropWhile_cons]
    simp [h a (List.mem_cons_self a t)]

theorem trimChars_of_all_allowed {l : List Char} (h : ∀ c ∈ l, isAllowed c = true) :
    trimChars l = l := by
  unfold trimChars
  rw [dropWhile_of_all_neg l (fun c hc => isAllowed_not_space (h c hc))]
  rw [dropWhile_of_all_neg l.reverse
    (fun c hc => isAllowed_not_space (h c (List.mem_reverse.mp hc)))]
  exact List.reverse_reverse l

theorem map_replUnd_of_all_allowed {l : List Char} (h : ∀ c ∈ l, isAllowed c = true) :
    l.map replUnd = l := by
  induction l with
  | nil => rfl
  | cons a t ih =>
    simp only [List.map_cons]
    rw [isAllowed_replUnd (h a (List.mem_cons_self a t)),
      ih (fun c hc => h c (List.mem_cons_of_mem a hc))]

theorem cleanChars_idem (cs : List Char) : cleanChars (cleanChars cs) = cleanChars cs := by
  have hall : ∀ c ∈ cleanChars cs, isAllowed c = true := by
    intro c hc
    exact List.of_mem_filter hc
  calc cleanChars (cleanChars cs)
      = ((trimChars (cleanChars cs)).map replUnd).filter isAllowed := rfl
    _ = ((cleanChars cs).map replUnd).filter isAllowed := by
        rw [trimChars_of_all_allowed hall]
    _ = (cleanChars cs).filter isAllowed := by rw [map_replUnd_of_all_allowed hall]
    _ = cleanChars cs := List.filter_eq_self.mpr hall

theorem clean_text_unknown_fixed : CreateMetadata.clean_text "Unknown" = "Unknown" := by decide

theorem clean_text_idem (x : String) :
    CreateMetadata.clean_text (CreateMetadata.clean_text x) = CreateMetadata.clean_text x := by
  by_cases hx : x = ""
  · rw [hx, show CreateMetadata.clean_text "" = "Unknown" from rfl, clean_text_unknown_fixed]
  · by_cases hv : cleanChars x.data = []
    · have h1 : CreateMetadata.clean_text x = "Unknown" := by
        unfold CreateMetadata.clean_text
        rw [if_neg hx]
        simp [hv]
      rw [h1, clean_text_unknown_fixed]
    · have h1 : CreateMetadata.clean_text x = String.mk (cleanChars x.data) := by
        unfold CreateMetadata.clean_text
        rw [if_neg hx]
        simp [hv]
      rw [h1]
      unfold CreateMetadata.clean_text
      have hmk : String.mk (cleanChars x.data) ≠ "" := by
        intro hcon
        exact hv (congrArg String.data hcon)
      rw [if_neg hmk]
      have hdata : (String.mk (cleanChars x.data)).data = cleanChars x.data := rfl
      simp only [hdata, cleanChars_idem]
      rw [if_neg hv]

-- Helper lemmas about the detection scans

theorem findInsurer_eq_find (s : List Char) (l : List String) :
    CreateMetadata.findInsurer s l =
      (l.find? (fun i => isSubstr (i.data.map Char.toUpper) s)).getD "Unknown" := by
  induction l with
  | nil => rfl
  | cons a t ih =>
    unfold CreateMetadata.findInsurer
    cases h : isSubstr (a.data.map Char.toUpper) s
    · rw [if_neg (by simp [h]), ih, List.find?_cons_of_neg _ (by simp [h])]
    · rw [if_pos rfl, List.find?_cons_of_pos _ (by simp [h])]
      rfl

theorem findProductLine_eq_find (ls : List (List Char)) :
    CreateMetadata.findProductLine ls =
      ((ls.map trimChars).find? CreateMetadata.productLineOk).elim "General Policy"
        String.mk := by
  induction ls with
  | nil => rfl
  | cons l rest ih =>
    unfold CreateMetadata.findProductLine
    simp only [List.map_cons]
    cases h1 : (decide (10 < (trimChars l).length) && decide ((trimChars l).length < 100) &&
        !(("www".data).isPrefixOf (trimChars l))) with
    | true =>
      cases h2 : CreateMetadata.anyKw ((trimChars l).map Char.toLower)
          ["policy", "insurance", "wording", "cover"] with
      | true =>
        rw [if_pos rfl, if_pos rfl,
          List.find?_cons_of_pos _ (show CreateMetadata.productLineOk (trimChars l) = true by
            simp [CreateMetadata.productLineOk, h1, h2])]
        rfl
      | false =>
        rw [if_pos rfl, if_neg (by simp), ih,
          List.find?_cons_of_neg _ (by simp [CreateMetadata.productLineOk, h1, h2])]
    | false =>
      rw [if_neg (by simp), ih,
        List.find?_cons_of_neg _ (by simp [CreateMetadata.productLineOk, h1])]

theorem findProductLine_ne_unknown (ls : List (List Char)) :
    CreateMetadata.findProductLine ls ≠ "Unknown" := by
  induction ls with
  | nil => decide
  | cons l rest ih =>
    unfold CreateMetadata.findProductLine
    by_cases h1 : (decide (10 < (trimChars l).length) && decide ((trimChars l).length < 100) &&
        !(("www".data).isPrefixOf (trimChars l))) = true
    · by_cases h2 : CreateMetadata.anyKw ((trimChars l).map Char.toLower)
          ["policy", "insurance", "wording", "cover"] = true
      · rw [if_pos h1, if_pos h2]
        intro hcon
        have hdata : trimChars l = "Unknown".data := congrArg String.data hcon
        have hlen : 10 < (trimChars l).length := by
          simp only [Bool.and_eq_true, decide_eq_true_eq] at h1
          exact h1.1.1
        rw [hdata] at hlen
        simp at hlen
      · rw [if_pos h1, if_neg h2]
        exact ih
    · rw [if_neg h1]
      exact ih

theorem detect_product_name_ne_unknown (t : String) :
    CreateMetadata.detect_product_name t ≠ "Unknown" :=
  findProductLine_ne_unknown _

/-- C5: insurer detection looks only at the first 2000 characters and returns
the earliest dictionary entry (dictionary order) whose name occurs
case-insensitively as a literal substring there, else `"Unknown"` — so when no
entry occurs in the first 2000 characters (e.g. a known name appearing only
later), the result is `"Unknown"`. -/
theorem detect_insurer_first2000_dict_order :
    (∀ t : String, CreateMetadata.detect_insurer t = CreateMetadata.insurerSpec t) ∧
    (∀ t : String, CreateMetadata.detect_insurer t =
      CreateMetadata.detect_insurer (CreateMetadata.take2000 t)) ∧
    (∀ t : String, (∀ i ∈ CreateMetadata.KNOWN_INSURERS,
        CreateMetadata.occursCI i (CreateMetadata.take2000 t) = false) →
      CreateMetadata.detect_insurer t = "Unknown") := by
  have hspec : ∀ t : String, CreateMetadata.detect_insurer t = CreateMetadata.insurerSpec t := by
    intro t
    rw [CreateMetadata.detect_insurer, findInsurer_eq_find]
    rfl
  refine ⟨hspec, fun t => ?_, fun t h => ?_⟩
  · show CreateMetadata.findInsurer _ _ = CreateMetadata.findInsurer _ _
    rw [show (CreateMetadata.take2000 t).data = t.data.take 2000 from rfl, List.take_take]
    simp
  · rw [hspec, CreateMetadata.insurerSpec, List.find?_eq_none.mpr]
    · rfl
    · intro i hi
      simp [h i hi]

theorem detect_insurer_first2000_dict_order_witness :
    CreateMetadata.detect_insurer "hello" = "Unknown" :=
  detect_insurer_first2000_dict_order.2.2 "hello" (by decide)

/-- C6: insurance-line detection is a strict ordered first match over the
lower-cased full text against the fixed most-specific-first category list
(`"Unknown"` when nothing matches); in particular any text containing both
the "professional indemnity" and "motor" keywords classifies as
`"Professional Indemnity"`. -/
theorem detect_line_ordered_first_match :
    (∀ t : String, CreateMetadata.detect_line t = CreateMetadata.lineSpec t) ∧
    (∀ t : String,
      isSubstr "professional indemnity".data (t.data.map Char.toLower) = true →
      isSubstr "motor".data (t.data.map Char.toLower) = true →
      CreateMetadata.detect_line t = "Professional Indemnity") := by
  constructor
  · intro t
    rfl
  · intro t h1 _h2
    have h : CreateMetadata.anyKw (t.data.map Char.toLower)
        ["professional indemnity", "pi insurance", "professional liability",
          "accountants liability"] = true := by
      simp only [CreateMetadata.anyKw, List.any_cons, Bool.or_eq_true]
      exact Or.inl h1
    simp [CreateMetadata.detect_line, h]

theorem detect_line_ordered_first_match_witness :
    CreateMetadata.detect_line "professional indemnity and motor cover" =
      "Professional Indemnity" :=
  detect_line_ordered_first_match.2 "professional indemnity and motor cover"
    (by decide) (by decide)

/-- C7: product-name detection inspects only the first 30 lines and returns
the first line whose trim has length strictly between 10 and 100, does not
start with `"www"`, and whose lower-cased form contains one of
policy/insurance/wording/cover — returned trimmed — else the fallback
`"General Policy"`; the result is never `"Unknown"`. -/
theorem detect_product_name_first30_qualifying :
    (∀ t : String, CreateMetadata.detect_product_name t = CreateMetadata.productSpec t) ∧
    (∀ t : String, CreateMetadata.detect_product_name t ≠ "Unknown") := by
  constructor
  · intro t
    rw [CreateMetadata.detect_product_name, findProductLine_eq_find]
    rfl
  · exact detect_product_name_ne_unknown

/-- C8: both copies of the text-cleaning function are idempotent
(`clean(clean(x)) = clean(x)` for every string `x`), and the filename
builders are pure: the same fields always give the same output. -/
theorem clean_idempotent_build_pure :
    (∀ x : String, CreateMetadata.clean_text (CreateMetadata.clean_text x) =
      CreateMetadata.clean_text x) ∧
    (∀ x : String, OrganizePdfs.clean_text (OrganizePdfs.clean_text x) =
      OrganizePdfs.clean_text x) ∧
    (∀ m : Metadata, OrganizePdfs.build_filename m = OrganizePdfs.build_filename m) ∧
    (∀ c i l p : String, CreateMetadata.build_filename c i l p =
      CreateMetadata.build_filename c i l p) := by
  have hco : ∀ v : String, OrganizePdfs.clean_text v = CreateMetadata.clean_text v :=
    fun _ => rfl
  refine ⟨clean_text_idem, fun x => ?_, fun _ => rfl, fun _ _ _ _ => rfl⟩
  simp only [hco]
  exact clean_text_idem x

/-- C9: the Classifier's confidence is `"High"` exactly when country, insurer
and insurance_line are all non-`"Unknown"` (product_name excluded), `"Medium"`
otherwise; since the detected product name is never `"Unknown"`, this
coincides with all four classification fields being resolved. -/
theorem classifier_confidence_high_iff :
    ∀ filename text today : String,
      ((classifierStep filename text today).confidence = some "High" ↔
        ((classifierStep filename text today).country ≠ some "Unknown" ∧
         (classifierStep filename text today).insurer ≠ some "Unknown" ∧
         (classifierStep filename text today).insurance_line ≠ some "Unknown")) ∧
      ((classifierStep filename text today).confidence = some "Medium" ↔
        ¬((classifierStep filename text today).country ≠ some "Unknown" ∧
          (classifierStep filename text today).insurer ≠ some "Unknown" ∧
          (classifierStep filename text today).insurance_line ≠ some "Unknown")) ∧
      ((classifierStep filename text today).confidence = some "High" ↔
        ((classifierStep filename text today).country ≠ some "Unknown" ∧
         (classifierStep filename text today).insurer ≠ some "Unknown" ∧
         (classifierStep filename text today).insurance_line ≠ some "Unknown" ∧
         (classifierStep filename text today).product_name ≠ some "Unknown")) := by
  intro f t d
  have hprod := detect_product_name_ne_unknown t
  have hc : (classifierStep f t d).country = some (CreateMetadata.detect_country t) := rfl
  have hi : (classifierStep f t d).insurer = some (CreateMetadata.detect_insurer t) := rfl
  have hl : (classifierStep f t d).insurance_line = some (CreateMetadata.detect_line t) := rfl
  have hp : (classifierStep f t d).product_name =
    some (CreateMetadata.detect_product_name t) := rfl
  have hcf : (classifierStep f t d).confidence =
    some (CreateMetadata.confidence_of (CreateMetadata.detect_country t)
      (CreateMetadata.detect_insurer t) (CreateMetadata.detect_line t)) := rfl
  rw [hc, hi, hl, hp, hcf]
  simp only [ne_eq, Option.some.injEq]
  by_cases h : ¬CreateMetadata.detect_country t = "Unknown" ∧
      ¬CreateMetadata.detect_insurer t = "Unknown" ∧ ¬CreateMetadata.detect_line t = "Unknown"
  · obtain ⟨h1, h2, h3⟩ := h
    have hhigh : CreateMetadata.confidence_of (CreateMetadata.detect_country t)
        (CreateMetadata.detect_insurer t) (CreateMetadata.detect_line t) = "High" := by
      unfold CreateMetadata.confidence_of
      rw [if_pos ⟨h1, h2, h3⟩]
    rw [hhigh]
    refine ⟨iff_of_true rfl ⟨h1, h2, h3⟩, iff_of_false (by decide) ?_,
      iff_of_true rfl ⟨h1, h2, h3, hprod⟩⟩
    intro hcon
    exact hcon ⟨h1, h2, h3⟩
  · have hmed : CreateMetadata.confidence_of (CreateMetadata.detect_country t)
        (CreateMetadata.detect_insurer t) (CreateMetadata.detect_line t) = "Medium" := by
      unfold CreateMetadata.confidence_of
      rw [if_neg h]
    rw [hmed]
    exact ⟨iff_of_false (by decide) h, iff_of_true rfl h,
      iff_of_false (by decide) (fun hcon => h ⟨hcon.1, hcon.2.1, hcon.2.2.1⟩)⟩

/-- C1: for every record with any of the four classification fields equal to
`"Unknown"` and every input, the Organizer leaves the record unchanged (in
particular it never sets its status to `"organized"`) and the outcome is not a
successful organize. -/
theorem organizer_never_organizes_unknown :
    ∀ (m : Metadata) (se mk mv : Bool) (now : String),
      (m.country = some "Unknown" ∨ m.insurer = some "Unknown" ∨
        m.insurance_line = some "Unknown" ∨ m.product_name = some "Unknown") →
      (OrganizePdfs.organizeRecord m se mk mv now).1 = m ∧
      (OrganizePdfs.organizeRecord m se mk mv now).2 ≠ OrganizePdfs.Outcome.organized := by
  intro m se mk mv now h
  unfold OrganizePdfs.organizeRecord
  split_ifs with h1 h2 h3 h4 h5 h6 h7 h8 h9 <;>
    first
      | exact ⟨rfl, by simp⟩
      | rcases h with hh | hh | hh | hh
        exact absurd hh h3
        exact absurd hh h4
        exact absurd hh h5
        exact absurd hh h6

theorem organizer_never_organizes_unknown_witness :
    (OrganizePdfs.organizeRecord unknownProductMeta true true true "2026-01-01").1 =
      unknownProductMeta ∧
    (OrganizePdfs.organizeRecord unknownProductMeta true true true "2026-01-01").2 ≠
      OrganizePdfs.Outcome.organized :=
  organizer_never_organizes_unknown unknownProductMeta true true true "2026-01-01"
    (by decide)

/-- C2 counterexample: the Classifier writes a fresh record with
`status = "needs_review"` unconditionally, so re-running it on a source file
whose record is already `"classified"` regresses the persisted status. -/
theorem classifier_rerun_regresses_status :
    (classifierStep "doc1.pdf" "policy text here" "2026-10-12").status =
      some "needs_review" ∧
    classifiedMeta.status = some "classified" ∧
    statusRank ((classifierStep "doc1.pdf" "policy text here" "2026-10-12").status) <
      statusRank classifiedMeta.status := by
  refine ⟨rfl, rfl, ?_⟩
  show statusRank (some "needs_review") < statusRank (some "classified")
  decide

/-- C2 amended: the Organizer never regresses a record's status (its only
status change is `classified` to `organized`); re-running the Classifier,
however, overwrites any existing record with a fresh `needs_review` one, so
monotonicity holds only for the Organizer stage. -/
theorem organizer_status_monotonic :
    ∀ (m : Metadata) (se mk mv : Bool) (now : String),
      statusRank m.status ≤
        statusRank (OrganizePdfs.organizeRecord m se mk mv now).1.status := by
  intro m se mk mv now
  unfold OrganizePdfs.organizeRecord
  split_ifs with h1 h2 h3 h4 h5 h6 h7 h8 h9 <;> try exact le_refl _
  have hs : m.status.getD "unknown" = "classified" := not_not.mp h2
  cases hst : m.status with
  | none =>
    rw [hst] at hs
    exact absurd hs (by decide)
  | some s =>
    rw [hst] at hs
    simp only [Option.getD_some] at hs
    subst hs
    show statusRank (some "classified") ≤ statusRank (some "organized")
    decide

theorem organizeRecord_unchanged_or_organized :
    ∀ (m : Metadata) (se mk mv : Bool) (now : String),
      (OrganizePdfs.organizeRecord m se mk mv now).1 = m ∨
      (OrganizePdfs.organizeRecord m se mk mv now).2 = OrganizePdfs.Outcome.organized := by
  intro m se mk mv now
  unfold OrganizePdfs.organizeRecord
  split_ifs <;> simp

/-- C3: when the admission gate passes but the source file is absent, the
Organizer reports a file-not-found failure and leaves the record exactly as it
was (status stays `"classified"`, no field changes); more generally the record
is mutated only when the move succeeded. -/
theorem organizer_missing_source_no_mutation :
    (∀ (m : Metadata) (mv : Bool) (now : String),
      m.original_filename.getD "" ≠ "" →
      m.status = some "classified" →
      m.country ≠ some "Unknown" →
      m.insurer ≠ some "Unknown" →
      m.insurance_line ≠ some "Unknown" →
      m.product_name ≠ some "Unknown" →
      OrganizePdfs.organizeRecord m false true mv now =
        (m, OrganizePdfs.Outcome.errorFileNotFound)) ∧
    (∀ (m : Metadata) (se mk mv : Bool) (now : String),
      (OrganizePdfs.organizeRecord m se mk mv now).2 ≠ OrganizePdfs.Outcome.organized →
      (OrganizePdfs.organizeRecord m se mk mv now).1 = m) := by
  constructor
  · intro m mv now h1 h2 h3 h4 h5 h6
    simp [OrganizePdfs.organizeRecord, h1, h2, h3, h4, h5, h6]
  · intro m se mk mv now h
    rcases organizeRecord_unchanged_or_organized m se mk mv now with h1 | h1
    · exact h1
    · exact absurd h1 h

theorem organizer_missing_source_no_mutation_witness :
    OrganizePdfs.organizeRecord classifiedMeta false true true "2026-01-01" =
      (classifiedMeta, OrganizePdfs.Outcome.errorFileNotFound) :=
  organizer_missing_source_no_mutation.1 classifiedMeta true "2026-01-01"
    (by decide) (by decide) (by decide) (by decide) (by decide) (by decide)

/-- C4 counterexample: a record with `status = "needs_review"` but no
`original_filename` is skipped with the missing-filename reason, not with its
status as the reason, refuting the claim's universal "status reported as the
reason" clause. -/
theorem organizer_nonclassified_reason_cex :
    OrganizePdfs.organizeRecord noFilenameMeta true true true "2026-01-01" =
      (noFilenameMeta, OrganizePdfs.Outcome.skippedMissingFilename) ∧
    noFilenameMeta.status = some "needs_review" ∧
    OrganizePdfs.Outcome.skippedMissingFilename ≠
      OrganizePdfs.Outcome.skippedStatus "needs_review" := by
  refine ⟨rfl, rfl, by decide⟩

/-- C4 amended: a record whose status is not exactly `"classified"` (including
missing status) is never mutated or moved by the Organizer; when its
`original_filename` is present and non-empty it is skipped with its status as
the reported reason (records without `original_filename` are skipped earlier
with a missing-filename reason). -/
theorem organizer_nonclassified_skipped :
    ∀ (m : Metadata) (se mk mv : Bool) (now : String),
      m.status.getD "unknown" ≠ "classified" →
      (OrganizePdfs.organizeRecord m se mk mv now).1 = m ∧
      (OrganizePdfs.organizeRecord m se mk mv now).2 ≠ OrganizePdfs.Outcome.organized ∧
      (m.original_filename.getD "" ≠ "" →
        (OrganizePdfs.organizeRecord m se mk mv now).2 =
          OrganizePdfs.Outcome.skippedStatus (m.status.getD "unknown")) := by
  intro m se mk mv now h
  unfold OrganizePdfs.organizeRecord
  by_cases hf : m.original_filename.getD "" = ""
  · rw [if_pos hf]
    exact ⟨rfl, by simp, fun hc => absurd hf hc⟩
  · rw [if_neg hf, if_pos h]
    exact ⟨rfl, by simp, fun _ => rfl⟩

theorem organizer_nonclassified_skipped_witness :
    (OrganizePdfs.organizeRecord needsReviewMeta true true true "2026-01-01").1 =
      needsReviewMeta ∧
    (OrganizePdfs.organizeRecord needsReviewMeta true true true "2026-01-01").2 =
      OrganizePdfs.Outcome.skippedStatus "needs_review" := by
  obtain ⟨a, _, c⟩ :=
    organizer_nonclassified_skipped needsReviewMeta true true true "2026-01-01" (by decide)
  exact ⟨a, c (by decide)⟩

/-- C10: the destination path depends only on the four cleaned classification
fields and not on `original_filename`; two admitted records with distinct
`original_filename` but equal fields target the identical destination, and the
later move replaces the file placed by the earlier one. -/
theorem dst_path_ignores_original_filename :
    (∀ m1 m2 : Metadata, m1.country = m2.country → m1.insurer = m2.insurer →
      m1.insurance_line = m2.insurance_line → m1.product_name = m2.product_name →
      OrganizePdfs.dstPath m1 = OrganizePdfs.dstPath m2) ∧
    (classifiedMeta.original_filename ≠ classifiedMeta2.original_filename ∧
      OrganizePdfs.dstPath classifiedMeta = OrganizePdfs.dstPath classifiedMeta2 ∧
      (OrganizePdfs.organizeFs fsTwoDocs classifiedMeta "2026-01-01").2.2 =
        OrganizePdfs.Outcome.organized ∧
      (OrganizePdfs.organizeFs fsTwoDocs classifiedMeta "2026-01-01").1
        (OrganizePdfs.dstPath classifiedMeta) = some "contentA" ∧
      (OrganizePdfs.organizeFs (OrganizePdfs.organizeFs fsTwoDocs classifiedMeta "2026-01-01").1
          classifiedMeta2 "2026-01-02").2.2 = OrganizePdfs.Outcome.organized ∧
      (OrganizePdfs.organizeFs (OrganizePdfs.organizeFs fsTwoDocs classifiedMeta "2026-01-01").1
          classifiedMeta2 "2026-01-02").1 (OrganizePdfs.dstPath classifiedMeta) =
        some "contentB") := by
  constructor
  · intro m1 m2 hc hi hl hp
    unfold OrganizePdfs.dstPath OrganizePdfs.folderPath OrganizePdfs.build_filename
    rw [hc, hi, hl, hp]
  · refine ⟨by decide, by decide, by decide, by decide, by decide, by decide⟩

theorem dst_path_ignores_original_filename_witness :
    OrganizePdfs.dstPath classifiedMeta = OrganizePdfs.dstPath classifiedMeta2 :=
  dst_path_ignores_original_filename.1 classifiedMeta classifiedMeta2 rfl rfl rfl rfl
